import Mathlib

/-!
Verification of the PoDoFo encryption subsystem (`src/podofo/main/PdfEncrypt.cpp`)
against its natural-language specification.

Bytes are modelled as `Nat` values (< 256 where it matters).  The cryptographic
primitives (MD5, RC4, SHA-256/384/512, AES-CBC, SASLprep) are external
collaborators provided by OpenSSL; the development is parameterized over them by
a `CryptoPrims` record and models only how the code sequences and parameterizes
them, exactly as the specification prescribes.
-/

namespace PoDoFo

/-- Result of an authentication attempt (`PdfAuthResult`, spelled as in the
source, including the `Unkwnon` misspelling). -/
inductive PdfAuthResult where
  | Unkwnon
  | Failed
  | User
  | Owner
  deriving DecidableEq

/-- Error kinds raised by the encryption subsystem.  `PdfError.h` is not among
the sources; the enumeration is modelled from the spec: section 7 lists
`UnsupportedFilter`, `InvalidEncryptionDict`, `InvalidPassword`, `InternalLogic`,
`UnexpectedEOF` and `NotImplemented`.  The sources additionally use `NoObject`
(`PdfDictionary::MustGetKey` / `MustFindKey`), `InvalidEnumValue` and
`OutOfMemory`. -/
inductive PdfErrorCode where
  | UnsupportedFilter
  | InvalidEncryptionDict
  | InvalidPassword
  | InternalLogic
  | UnexpectedEOF
  | NotImplemented
  | NoObject
  | InvalidEnumValue
  | OutOfMemory
  deriving DecidableEq

/-- Algorithm selector (`PdfEncryptionAlgorithm`). -/
inductive PdfEncryptionAlgorithm where
  | RC4V1
  | RC4V2
  | AESV2
  | AESV3R5
  | AESV3R6
  deriving DecidableEq

/-- External cryptographic primitives (OpenSSL EVP calls in the source).
`rc4 key data` is the RC4 stream cipher keyed with `key`; `aesEnc`/`aesDec`
are AES-CBC without padding, taking key, initialization vector and data;
`saslprep` is the Unicode password normalization (`sprep::TrySASLprep`),
`none` meaning failure. -/
structure CryptoPrims where
  md5 : List Nat → List Nat
  rc4 : List Nat → List Nat → List Nat
  sha256 : List Nat → List Nat
  sha384 : List Nat → List Nat
  sha512 : List Nat → List Nat
  aesEnc : List Nat → List Nat → List Nat → List Nat
  aesDec : List Nat → List Nat → List Nat → List Nat
  saslprep : List Nat → Option (List Nat)

/-- The 32-byte padding constant `padding[]` of `PdfEncrypt.cpp`. -/
def paddingBytes : List Nat :=
  [0x28, 0xBF, 0x4E, 0x5E, 0x4E, 0x75, 0x8A, 0x41,
   0x64, 0x00, 0x4E, 0x56, 0xFF, 0xFA, 0x01, 0x08,
   0x2E, 0x2E, 0x00, 0xB6, 0xD0, 0x68, 0x3E, 0x80,
   0x2F, 0x0C, 0xA9, 0xFE, 0x64, 0x53, 0x69, 0x7A]

/-- `PdfEncryptMD5Base::PadPassword`: truncate the password to at most 32
bytes and fill up to exactly 32 bytes from the padding constant. -/
def PadPassword (password : List Nat) : List Nat :=
  password.take 32 ++ paddingBytes.take (32 - min password.length 32)

/-- `PdfEncrypt::CheckKey`: compare the first `keyLength` bytes of the two
keys; any mismatch is a failure. -/
def CheckKey (key1 key2 : List Nat) (keyLength : Nat) : Bool :=
  (List.range keyLength).all fun k => key1.getD k 0 == key2.getD k 0

namespace PdfEncryptMD5Base

/-- `PdfEncryptMD5Base::ComputeOwnerKey`: MD5 of the padded owner password,
re-hashed 50 times over the first `keyLength` bytes for revision 3/4, then
20 RC4 rounds over the padded user password with round key
`digest XOR i` (encrypt direction) or `digest XOR (19 - i)` (authenticate
direction); for other revisions a single RC4 pass keyed with the first
5 digest bytes. -/
def ComputeOwnerKey (prims : CryptoPrims) (userPad ownerPad : List Nat)
    (keyLength revision : Nat) (authenticate : Bool) : List Nat :=
  let digest0 := prims.md5 ownerPad
  if revision = 3 ∨ revision = 4 then
    let digest := (fun d => prims.md5 (d.take keyLength))^[50] digest0
    (List.range 20).foldl
      (fun ownerKey i =>
        let mkey := (List.range keyLength).map fun j =>
          digest.getD j 0 ^^^ (if authenticate then 19 - i else i)
        prims.rc4 mkey ownerKey)
      userPad
  else
    prims.rc4 (digest0.take 5) userPad

/-- `PdfEncryptMD5Base::ComputeEncryptionKey`: MD5 over padded user password,
owner key, little-endian permissions, document id and (when metadata is not
encrypted) four `0xFF` bytes; re-hashed 50 times for revision 3/4; the
encryption key is the first `keyLength` digest bytes.  The user key is the
20-round RC4 transform of `MD5(padding ++ documentId)` (first 16 bytes,
zero-extended) for revision 3/4, else one RC4 pass over the padding
constant keyed with the encryption key.  Returns `(userKey, encryptionKey)`. -/
def ComputeEncryptionKey (prims : CryptoPrims) (documentId : List Nat)
    (userPad ownerKey : List Nat) (pValue : Nat) (keyLength revision : Nat)
    (encryptMetadata : Bool) : List Nat × List Nat :=
  let ext := [pValue >>> 0 &&& 0xFF, pValue >>> 8 &&& 0xFF,
              pValue >>> 16 &&& 0xFF, pValue >>> 24 &&& 0xFF]
  let input := userPad ++ ownerKey ++ ext ++ documentId ++
    (if encryptMetadata then [] else [0xFF, 0xFF, 0xFF, 0xFF])
  let digest0 := prims.md5 input
  let digest :=
    if revision = 3 ∨ revision = 4 then
      (fun d => prims.md5 (d.take keyLength))^[50] digest0
    else digest0
  let encryptionKey := digest.take keyLength
  let userKey :=
    if revision = 3 ∨ revision = 4 then
      let digest2 := prims.md5 (paddingBytes ++ documentId)
      let userKey0 := digest2.take 16 ++ List.replicate 16 0
      (List.range 20).foldl
        (fun userKey k =>
          let rkey := (List.range keyLength).map fun j => encryptionKey.getD j 0 ^^^ k
          prims.rc4 rkey (userKey.take 16) ++ userKey.drop 16)
        userKey0
    else
      prims.rc4 encryptionKey paddingBytes
  (userKey, encryptionKey)

/-- `PdfEncryptMD5Base::CreateObjKey`: MD5 of the first `keyLength` key
bytes, the low 3 bytes of the object number (little endian), the low 2
bytes of the generation number (little endian) and, for AESV2 only, the
fixed salt `0x73 0x41 0x6C 0x54`; the effective key length is
`keyLength + 5` capped at 16.  Returns `(digest, effective length)`. -/
def CreateObjKey (prims : CryptoPrims) (algorithm : PdfEncryptionAlgorithm)
    (encryptionKey : List Nat) (keyLength objNum genNum : Nat) :
    List Nat × Nat :=
  let nkey := (List.range keyLength).map (fun j => encryptionKey.getD j 0) ++
    [0xFF &&& objNum, 0xFF &&& (objNum >>> 8), 0xFF &&& (objNum >>> 16),
     0xFF &&& genNum, 0xFF &&& (genNum >>> 8)] ++
    (if algorithm = PdfEncryptionAlgorithm.AESV2 then [0x73, 0x41, 0x6C, 0x54] else [])
  let objkey := prims.md5 nkey
  let pnKeyLen := if keyLength ≤ 11 then keyLength + 5 else 16
  (objkey, pnKeyLen)

end PdfEncryptMD5Base

namespace PdfEncryptRC4

/-- `PdfEncryptRC4::GenerateEncryptionKey` (identical in structure to
`PdfEncryptAESV2::GenerateEncryptionKey`): pad both passwords, compute the
O value, then the U value and the encryption key.  Returns
`(uValue, oValue, encryptionKey)`. -/
def GenerateEncryptionKey (prims : CryptoPrims) (userPass ownerPass documentId : List Nat)
    (pValue keyLength revision : Nat) (encryptMetadata : Bool) :
    List Nat × List Nat × List Nat :=
  let userpswd := PadPassword userPass
  let ownerpswd := PadPassword ownerPass
  let oValue := PdfEncryptMD5Base.ComputeOwnerKey prims userpswd ownerpswd keyLength revision false
  let r := PdfEncryptMD5Base.ComputeEncryptionKey prims documentId userpswd oValue
    pValue keyLength revision encryptMetadata
  (r.1, oValue, r.2)

/-- `PdfEncryptRC4::Authenticate` (identical in structure to
`PdfEncryptAESV2::Authenticate`): try the candidate as user password, then
as owner password by reverse-applying the owner-key rounds to the stored
O value.  Returns the authentication result paired with the encryption key
left in the output parameter. -/
def Authenticate (prims : CryptoPrims) (password documentId : List Nat)
    (oValue uValue : List Nat) (pValue keyLength revision : Nat)
    (encryptMetadata : Bool) : PdfAuthResult × List Nat :=
  let pswd := PadPassword password
  let r1 := PdfEncryptMD5Base.ComputeEncryptionKey prims documentId pswd oValue
    pValue keyLength revision encryptMetadata
  if CheckKey r1.1 uValue keyLength then
    (PdfAuthResult.User, r1.2)
  else
    let userpswd := PdfEncryptMD5Base.ComputeOwnerKey prims oValue pswd keyLength revision true
    let r2 := PdfEncryptMD5Base.ComputeEncryptionKey prims documentId userpswd oValue
      pValue keyLength revision encryptMetadata
    if CheckKey r2.1 uValue keyLength then
      (PdfAuthResult.Owner, r2.2)
    else
      (PdfAuthResult.Failed, r2.2)

/-- `PdfEncryptRC4::normalizeKeyLength`: round down to a multiple of 8 and
clamp to the range 40..128. -/
def normalizeKeyLength (keyLength : Nat) : Nat :=
  min (max (keyLength - keyLength % 8) 40) 128

/-- `PdfEncryptRC4::CalculateStreamLength`: the RC4 stream cipher preserves
the length. -/
def CalculateStreamLength (length : Nat) : Nat :=
  length

end PdfEncryptRC4

namespace PdfEncryptAESV2

/-- `PdfEncryptAESV2::generateInitialVector`: the initialization vector is
the MD5 digest of the document identifier (`ssl::ComputeMD5` writes exactly
16 bytes). -/
def generateInitialVector (prims : CryptoPrims) (documentId : List Nat) : List Nat :=
  (prims.md5 documentId).take 16

/-- `PdfEncryptAESV2::Encrypt`: derive the object key, write the
initialization vector into the first 16 output bytes, then AES-encrypt the
input after it. -/
def Encrypt (prims : CryptoPrims) (encryptionKey : List Nat) (keyLength : Nat)
    (documentId inStr : List Nat) (objNum genNum : Nat) : List Nat :=
  let ok := PdfEncryptMD5Base.CreateObjKey prims PdfEncryptionAlgorithm.AESV2
    encryptionKey keyLength objNum genNum
  let iv := generateInitialVector prims documentId
  iv ++ prims.aesEnc (ok.1.take ok.2) iv inStr

/-- `PdfEncryptAESV2::CalculateStreamLength`: pad the length up to a
multiple of 16, add 16 for the initialization vector, and one extra block
when the plaintext length is already a multiple of 16.  `size_t`
arithmetic is modelled modulo `2 ^ 64`. -/
def CalculateStreamLength (length : Nat) : Nat :=
  let realLength := (((length + 15) % 2 ^ 64 &&& (2 ^ 64 - 16)) + 16) % 2 ^ 64
  if length % 16 = 0 then (realLength + 16) % 2 ^ 64 else realLength

end PdfEncryptAESV2

namespace PdfEncryptAESV3

/-- State of the revision ≥ 6 hardening loop of
`PdfEncryptAESV3::computeHash`: the expanded-and-encrypted `data` buffer
with its tracked length `dataLen`, and the running hash `block` with its
tracked length `blockLen`. -/
structure HashLoopState where
  data : List Nat
  dataLen : Nat
  block : List Nat
  blockLen : Nat

/-- One round of the hardening loop: expand password, current block and
optional U value 64-fold, AES-CBC encrypt with key `block[0..16)` and
initialization vector `block[16..32)`, pick the next block length
`32 + (sum of the first 16 encrypted bytes mod 3) * 16`, and hash the
encrypted data with SHA-256, SHA-384 or SHA-512 accordingly. -/
def hashRound (prims : CryptoPrims) (pswd : List Nat) (uValue : Option (List Nat))
    (st : HashLoopState) : HashLoopState :=
  let data1 := pswd ++ st.block.take st.blockLen ++
    (match uValue with | some u => u.take 48 | none => [])
  let dataLen1 := pswd.length + st.blockLen +
    (match uValue with | some _ => 48 | none => 0)
  let dataFull := (List.replicate 64 data1).flatten
  let encData := prims.aesEnc (st.block.take 16) ((st.block.drop 16).take 16) dataFull
  let sum := ((List.range 16).map fun j => encData.getD j 0).sum
  let blockLen2 := 32 + sum % 3 * 16
  let newBlock :=
    if blockLen2 = 32 then prims.sha256 encData
    else if blockLen2 = 48 then prims.sha384 encData
    else prims.sha512 encData
  { data := encData, dataLen := dataLen1 * 64, block := newBlock, blockLen := blockLen2 }

/-- Fuel-indexed unfolding of the hardening loop
`for (unsigned i = 0; i < 64 || i < 32 + data[dataLen - 1]; i++)`.
Returns the loop exit index together with the final state, or `none` if
the fuel runs out. -/
def hashLoop (prims : CryptoPrims) (pswd : List Nat) (uValue : Option (List Nat)) :
    Nat → Nat → HashLoopState → Option (Nat × HashLoopState)
  | 0, _, _ => none
  | fuel + 1, i, st =>
    if i < 64 ∨ i < 32 + st.data.getD (st.dataLen - 1) 0 then
      hashLoop prims pswd uValue fuel (i + 1) (hashRound prims pswd uValue st)
    else
      some (i, st)

/-- Initial state of the hardening loop: `block` holds the first 32 bytes
of the base SHA-256 hash; `data` is not yet written. -/
def hashLoopInit (prims : CryptoPrims) (pswd salt : List Nat)
    (uValue : Option (List Nat)) : HashLoopState :=
  { data := []
    dataLen := 0
    block := (prims.sha256 (pswd ++ salt.take 8 ++
      (match uValue with | some u => u.take 48 | none => []))).take 32
    blockLen := 32 }

/-- `PdfEncryptAESV3::computeHash`: SHA-256 of password, 8-byte salt and
optional 48-byte U value; for revision > 5 additionally the hardening
loop, whose final block is truncated to 32 bytes.  The loop always exits
within 287 rounds (see the termination theorem), so fuel 288 suffices;
the `none` fallback is never reached. -/
def computeHash (prims : CryptoPrims) (pswd : List Nat) (revision : Nat)
    (salt : List Nat) (uValue : Option (List Nat)) : List Nat :=
  let hash0 := prims.sha256 (pswd ++ salt.take 8 ++
    (match uValue with | some u => u.take 48 | none => []))
  if 5 < revision then
    match hashLoop prims pswd uValue 288 0 (hashLoopInit prims pswd salt uValue) with
    | some r => r.2.block.take 32
    | none => hash0.take 32
  else hash0

/-- `PdfEncryptAESV3::preprocessPassword`: SASLprep the password and
truncate the result to at most 127 bytes; `none` models the
`InvalidPassword` failure. -/
def preprocessPassword (prims : CryptoPrims) (password : List Nat) : Option (List Nat) :=
  (prims.saslprep password).map fun prepd => prepd.take 127

/-- `PdfEncryptAESV3::computeEncryptionKey`: draw `keyLength` pseudo-random
bytes (`rand() % 255`) from the process-wide generator, modelled as the
stream `rng` read from position `pos`.  Returns the key and the new
position. -/
def computeEncryptionKey (rng : Nat → Nat) (pos keyLength : Nat) : List Nat × Nat :=
  ((List.range keyLength).map fun i => rng (pos + i) % 255, pos + keyLength)

/-- `PdfEncryptAESV3::computeUserKey`: draw interleaved 8-byte validation
and key salts, hash the password with each, store
`U = hash ++ validation salt ++ key salt` and wrap the encryption key into
`UE` with AES-256-CBC, zero initialization vector, no padding.  Returns
`((uValue, ueValue), new rng position)`. -/
def computeUserKey (prims : CryptoPrims) (rng : Nat → Nat) (pos : Nat)
    (userpswd : List Nat) (revision keyLength : Nat) (encryptionKey : List Nat) :
    (List Nat × List Nat) × Nat :=
  let vSalt := (List.range 8).map fun i => rng (pos + 2 * i) % 255
  let kSalt := (List.range 8).map fun i => rng (pos + 2 * i + 1) % 255
  let hashU := computeHash prims userpswd revision vSalt none
  let uValue := hashU.take 32 ++ vSalt ++ kSalt
  let hashUE := computeHash prims userpswd revision kSalt none
  let ueValue := prims.aesEnc hashUE (List.replicate 16 0) (encryptionKey.take keyLength)
  ((uValue, ueValue), pos + 16)

/-- `PdfEncryptAESV3::computeOwnerKey`: like `computeUserKey` but hashing
additionally over the 48-byte U value, producing `O` and `OE`. -/
def computeOwnerKey (prims : CryptoPrims) (rng : Nat → Nat) (pos : Nat)
    (ownerpswd : List Nat) (revision keyLength : Nat)
    (encryptionKey uValue : List Nat) : (List Nat × List Nat) × Nat :=
  let vSalt := (List.range 8).map fun i => rng (pos + 2 * i) % 255
  let kSalt := (List.range 8).map fun i => rng (pos + 2 * i + 1) % 255
  let hashO := computeHash prims ownerpswd revision vSalt (some uValue)
  let oValue := hashO.take 32 ++ vSalt ++ kSalt
  let hashOE := computeHash prims ownerpswd revision kSalt (some uValue)
  let oeValue := prims.aesEnc hashOE (List.replicate 16 0) (encryptionKey.take keyLength)
  ((oValue, oeValue), pos + 16)

/-- The 16-byte plaintext Perms block built by
`PdfEncryptAESV3::GenerateEncryptionKey`: little-endian permissions, four
reserved `0xFF` bytes, the metadata flag as `'T'`/`'F'`, the mandatory
`"adb"` bytes and four ignored zero bytes. -/
def permsBlock (pValue : Nat) (encryptMetadata : Bool) : List Nat :=
  [pValue >>> 0 &&& 0xFF, pValue >>> 8 &&& 0xFF,
   pValue >>> 16 &&& 0xFF, pValue >>> 24 &&& 0xFF,
   0xFF, 0xFF, 0xFF, 0xFF,
   if encryptMetadata then 0x54 else 0x46,
   0x61, 0x64, 0x62,
   0, 0, 0, 0]

/-- Values produced by `PdfEncryptAESV3::GenerateEncryptionKey`. -/
structure AESV3Keys where
  uValue : List Nat
  oValue : List Nat
  ueValue : List Nat
  oeValue : List Nat
  permsValue : List Nat
  encryptionKey : List Nat

/-- `PdfEncryptAESV3::GenerateEncryptionKey`: preprocess both passwords
(`none` models the `InvalidPassword` failure), draw a random 32-byte
encryption key, compute U/UE, then O/OE over the fresh U value, and
encrypt the Perms block under the encryption key. -/
def GenerateEncryptionKey (prims : CryptoPrims) (rng : Nat → Nat) (pos : Nat)
    (userPass ownerPass : List Nat) (revision pValue : Nat)
    (encryptMetadata : Bool) : Option AESV3Keys :=
  match preprocessPassword prims userPass, preprocessPassword prims ownerPass with
  | some userpswd, some ownerpswd =>
    let keyLength := 32
    let ek := computeEncryptionKey rng pos keyLength
    let ur := computeUserKey prims rng ek.2 userpswd revision keyLength ek.1
    let orr := computeOwnerKey prims rng ur.2 ownerpswd revision keyLength ek.1 ur.1.1
    let permsValue := prims.aesEnc ek.1 (List.replicate 16 0)
      (permsBlock pValue encryptMetadata)
    some { uValue := ur.1.1, oValue := orr.1.1, ueValue := ur.1.2,
           oeValue := orr.1.2, permsValue := permsValue, encryptionKey := ek.1 }
  | _, _ => none

/-- `PdfEncryptAESV3::Authenticate`: hash the candidate with the user
validation salt (`U[32..40)`) and compare 32 bytes against `U`; on match,
the user key salt (`U[40..48)`) hash decrypts `UE` into the encryption
key.  Otherwise hash with the owner validation salt (`O[32..40)`) and the
48-byte `U` value and compare against `O`; on match the owner key salt
hash decrypts `OE`.  `none` models the `InvalidPassword` failure of
password preprocessing; on `Failed` the encryption key output parameter is
left untouched. -/
def Authenticate (prims : CryptoPrims) (password : List Nat)
    (uValue oValue ueValue oeValue : List Nat) (revision : Nat)
    (encryptionKeyIn : List Nat) : Option (PdfAuthResult × List Nat) :=
  match preprocessPassword prims password with
  | none => none
  | some pswd =>
    let hash1 := computeHash prims pswd revision ((uValue.drop 32).take 8) none
    if CheckKey hash1 uValue 32 then
      let hashK := computeHash prims pswd revision ((uValue.drop 40).take 8) none
      some (PdfAuthResult.User, prims.aesDec hashK (List.replicate 16 0) (ueValue.take 32))
    else
      let hash2 := computeHash prims pswd revision ((oValue.drop 32).take 8) (some uValue)
      if CheckKey hash2 oValue 32 then
        let hashK := computeHash prims pswd revision ((oValue.drop 40).take 8) (some uValue)
        some (PdfAuthResult.Owner, prims.aesDec hashK (List.replicate 16 0) (oeValue.take 32))
      else
        some (PdfAuthResult.Failed, encryptionKeyIn)

/-- `PdfEncryptAESV3::generateInitialVector`: 16 pseudo-random bytes
(`rand() % 255`) drawn from the process generator.  Returns the vector and
the new generator position. -/
def generateInitialVector (rng : Nat → Nat) (pos : Nat) : List Nat × Nat :=
  ((List.range 16).map fun i => rng (pos + i) % 255, pos + 16)

/-- `PdfEncryptAESV3::Encrypt`: generate the initialization vector into the
first 16 output bytes, then AES-encrypt the input under the 32-byte
document encryption key (no per-object key derivation).  Returns the output
buffer and the new generator position. -/
def Encrypt (prims : CryptoPrims) (encryptionKey : List Nat) (rng : Nat → Nat)
    (pos : Nat) (inStr : List Nat) : List Nat × Nat :=
  let iv := generateInitialVector rng pos
  (iv.1 ++ prims.aesEnc (encryptionKey.take 32) iv.1 inStr, iv.2)

/-- `PdfEncryptAESV3::CalculateStreamLength`: identical to the AESV2
version. -/
def CalculateStreamLength (length : Nat) : Nat :=
  let realLength := (((length + 15) % 2 ^ 64 &&& (2 ^ 64 - 16)) + 16) % 2 ^ 64
  if length % 16 = 0 then (realLength + 16) % 2 ^ 64 else realLength

/-- `PdfEncryptAESV3::CreateEncryptionInputStream`: the stream is created
with the document encryption key and key length 32, ignoring the object
reference entirely. -/
def CreateEncryptionInputStream (encryptionKey : List Nat) (objNum genNum : Nat) :
    List Nat × Nat :=
  (encryptionKey, 32)

end PdfEncryptAESV3

/-- Default permission bits OR-ed into every from-scratch P value
(`PERMS_DEFAULT` in `PdfEncrypt.cpp`). -/
def PERMS_DEFAULT : Nat := 0xFFFFF0C0

/-- Descriptor state stored by `PdfEncrypt::InitFromValues` /
`InitFromScratch` (the AESV3 extra values are kept separately). -/
structure PdfEncryptData where
  algorithm : PdfEncryptionAlgorithm
  keyLength : Nat
  rValue : Nat
  pValue : Nat
  uValue : List Nat
  oValue : List Nat
  encryptMetadata : Bool
  ueValue : List Nat := []
  oeValue : List Nat := []
  permsValue : List Nat := []
  deriving DecidableEq

/-- `static_cast<unsigned>` of a PDF 64-bit number (also the effect of
`GetNumber() & 0xFFFFFFFF` for the P entry). -/
def toUInt32 (x : Int) : Nat :=
  (x % (2 ^ 32 : Int)).toNat

/-- `PdfEncryptRC4::PdfEncryptRC4(oValue, uValue, ...)` (from parsed
values): check that the U and O strings hold at least 32 bytes, normalize
the key length and store the values. -/
def PdfEncryptRC4.fromValues (oValue uValue : List Nat) (pValue rValue : Nat)
    (algorithm : PdfEncryptionAlgorithm) (keyLength : Nat)
    (encryptMetadata : Bool) : Except PdfErrorCode PdfEncryptData :=
  if uValue.length < 32 then .error .InvalidEncryptionDict
  else if oValue.length < 32 then .error .InvalidEncryptionDict
  else .ok {
    algorithm := algorithm
    keyLength := PdfEncryptRC4.normalizeKeyLength keyLength
    rValue := rValue % 256
    pValue := pValue
    uValue := uValue.take 32
    oValue := oValue.take 32
    encryptMetadata := encryptMetadata }

/-- `PdfEncryptAESV2::PdfEncryptAESV2(oValue, uValue, ...)` (from parsed
values): 128-bit key, revision 4. -/
def PdfEncryptAESV2.fromValues (oValue uValue : List Nat) (pValue : Nat)
    (encryptMetadata : Bool) : Except PdfErrorCode PdfEncryptData :=
  if oValue.length < 32 then .error .InvalidEncryptionDict
  else if uValue.length < 32 then .error .InvalidEncryptionDict
  else .ok {
    algorithm := PdfEncryptionAlgorithm.AESV2
    keyLength := 128
    rValue := 4
    pValue := pValue
    uValue := uValue.take 32
    oValue := oValue.take 32
    encryptMetadata := encryptMetadata }

/-- `PdfEncryptAESV3::PdfEncryptAESV3(oValue, oeValue, uValue, ueValue,
...)` (from parsed values): 48-byte U and O, 32-byte UE and OE, 16-byte
Perms; 256-bit key; `encryptMetadata` is hard-coded to `true`. -/
def PdfEncryptAESV3.fromValues (oValue oeValue uValue ueValue : List Nat)
    (pValue : Nat) (permsValue : List Nat) (rValue : Nat) :
    Except PdfErrorCode PdfEncryptData :=
  if uValue.length < 48 then .error .InvalidEncryptionDict
  else if oValue.length < 48 then .error .InvalidEncryptionDict
  else if ueValue.length < 32 then .error .InvalidEncryptionDict
  else if oeValue.length < 32 then .error .InvalidEncryptionDict
  else if permsValue.length < 16 then .error .InvalidEncryptionDict
  else .ok {
    algorithm := if rValue = 6 then PdfEncryptionAlgorithm.AESV3R6
                 else PdfEncryptionAlgorithm.AESV3R5
    keyLength := 256
    rValue := rValue % 256
    pValue := pValue
    uValue := uValue.take 48
    oValue := oValue.take 48
    encryptMetadata := true
    ueValue := ueValue.take 32
    oeValue := oeValue.take 32
    permsValue := permsValue.take 16 }

/-- Typed view of the encryption dictionary entries read by
`PdfEncrypt::CreateFromObject`.  `cfm` is the name reached through the
`StmF` → `CF` → `CFM` chain when that chain resolves, `none` otherwise. -/
structure PdfObjectDict where
  filter : Option String
  v : Option Int
  r : Option Int
  p : Option Int
  o : Option (List Nat)
  u : Option (List Nat)
  length : Option Int
  encryptMetadata : Option Bool
  cfm : Option String
  perms : Option (List Nat)
  oe : Option (List Nat)
  ue : Option (List Nat)

/-- `PdfEncrypt::CreateFromObject`: reject a missing or non-`Standard`
Filter with `UnsupportedFilter`; read V, R, P, O, U (missing mandatory
keys raise `NoObject` via `MustGetKey`), the optional Length,
EncryptMetadata and CFM entries; then select the algorithm by the
(V, R, CFM, enabled-algorithms) table, raising `UnsupportedFilter` for
every unrecognized combination.  `hasRc4` tells whether the OpenSSL
legacy RC4 provider is available (which is what enables the RC4
algorithms in `GetEnabledEncryptionAlgorithms`). -/
def CreateFromObject (hasRc4 : Bool) (d : PdfObjectDict) :
    Except PdfErrorCode PdfEncryptData :=
  if d.filter ≠ some "Standard" then .error .UnsupportedFilter
  else match d.v, d.r, d.p, d.o, d.u with
  | some v0, some r0, some p0, some o0, some u0 =>
    let lV := toUInt32 v0
    let rValue := toUInt32 r0
    let pValue := toUInt32 p0
    let encryptMetadata := d.encryptMetadata.getD true
    if lV = 1 ∧ (rValue = 2 ∨ rValue = 3) ∧ hasRc4 = true then
      PdfEncryptRC4.fromValues o0 u0 pValue rValue PdfEncryptionAlgorithm.RC4V1
        40 encryptMetadata
    else if ((lV = 2 ∧ rValue = 3) ∨ d.cfm = some "V2") ∧ hasRc4 = true then
      PdfEncryptRC4.fromValues o0 u0 pValue rValue PdfEncryptionAlgorithm.RC4V2
        (toUInt32 (d.length.getD 0)) encryptMetadata
    else if lV = 4 ∧ rValue = 4 then
      PdfEncryptAESV2.fromValues o0 u0 pValue encryptMetadata
    else if lV = 5 ∧ (rValue = 5 ∨ rValue = 6) then
      match d.perms, d.oe, d.ue with
      | some perms0, some oe0, some ue0 =>
        PdfEncryptAESV3.fromValues o0 oe0 u0 ue0 pValue perms0 rValue
      | _, _, _ => .error .NoObject
    else .error .UnsupportedFilter
  | _, _, _, _, _ => .error .NoObject

/-- Fields stored by `PdfEncrypt::InitFromScratch` (passwords kept until the
keys are generated). -/
structure ScratchInit where
  userPass : List Nat
  ownerPass : List Nat
  algorithm : PdfEncryptionAlgorithm
  keyLength : Nat
  rValue : Nat
  pValue : Nat
  encryptMetadata : Bool

/-- `PdfEncrypt::InitFromScratch`. -/
def InitFromScratch (userPass ownerPass : List Nat)
    (algorithm : PdfEncryptionAlgorithm) (keyLength rValue pValue : Nat)
    (encryptMetadata : Bool) : ScratchInit :=
  { userPass := userPass, ownerPass := ownerPass, algorithm := algorithm,
    keyLength := keyLength, rValue := rValue, pValue := pValue,
    encryptMetadata := encryptMetadata }

/-- `PdfEncryptRC4::PdfEncryptRC4(userPassword, ownerPassword, ...)` (from
scratch): revision 2 with a 40-bit key for RC4V1, revision 3 with a
40..128-bit key (default 128) for RC4V2; the stored P value is
`PERMS_DEFAULT | protection`.  `keyLength = none` models
`PdfKeyLength::Unknown`. -/
def PdfEncryptRC4.ofScratch (userPass ownerPass : List Nat) (protection : Nat)
    (algorithm : PdfEncryptionAlgorithm) (keyLength : Option Nat) :
    Except PdfErrorCode ScratchInit :=
  match algorithm with
  | .RC4V1 =>
    match keyLength with
    | none => .ok (InitFromScratch userPass ownerPass .RC4V1 40 2
        (PERMS_DEFAULT ||| protection) true)
    | some kl =>
      if kl = 40 then
        .ok (InitFromScratch userPass ownerPass .RC4V1 40 2
          (PERMS_DEFAULT ||| protection) true)
      else .error .InvalidEncryptionDict
  | .RC4V2 =>
    match keyLength with
    | none => .ok (InitFromScratch userPass ownerPass .RC4V2 128 3
        (PERMS_DEFAULT ||| protection) true)
    | some kl =>
      if 40 ≤ kl ∧ kl ≤ 128 ∧ kl % 8 = 0 then
        .ok (InitFromScratch userPass ownerPass .RC4V2 kl 3
          (PERMS_DEFAULT ||| protection) true)
      else .error .InvalidEncryptionDict
  | _ => .error .InvalidEnumValue

/-- `PdfEncryptAESV2::PdfEncryptAESV2(userPassword, ownerPassword,
protection)` (from scratch): 128-bit key, revision 4, stored P value
`PERMS_DEFAULT | protection`. -/
def PdfEncryptAESV2.ofScratch (userPass ownerPass : List Nat)
    (protection : Nat) : ScratchInit :=
  InitFromScratch userPass ownerPass .AESV2 128 4 (PERMS_DEFAULT ||| protection) true

/-- `PdfEncryptAESV3::PdfEncryptAESV3(userPassword, ownerPassword,
revision, protection)` (from scratch): 256-bit key, revision 5 or 6,
stored P value `PERMS_DEFAULT | protection`. -/
def PdfEncryptAESV3.ofScratch (userPass ownerPass : List Nat)
    (revision protection : Nat) : ScratchInit :=
  InitFromScratch userPass ownerPass
    (if revision = 6 then .AESV3R6 else .AESV3R5) 256 revision
    (PERMS_DEFAULT ||| protection) true

/-- The AESV3-only member arrays (`m_ueValue[32]`, `m_oeValue[32]`,
`m_permsValue[16]`). -/
structure AESV3Extra where
  ueValue : List Nat
  oeValue : List Nat
  permsValue : List Nat
  deriving DecidableEq

/-- `PdfEncryptAESV3::PdfEncryptAESV3(const PdfEncryptAESV3&)` (the copy
constructor used by `PdfEncrypt::CreateFromEncrypt`): all three `memcpy`
calls use `std::size(m_permsValue)`, i.e. 16 bytes, so only the first 16
bytes of `m_ueValue` and `m_oeValue` are copied; the remaining bytes of
the destination arrays keep their indeterminate initial contents,
modelled by `uninit`. -/
def PdfEncryptAESV3.copyFrom (rhs uninit : AESV3Extra) : AESV3Extra :=
  { permsValue := rhs.permsValue.take 16 ++ uninit.permsValue.drop 16
    ueValue := rhs.ueValue.take 16 ++ uninit.ueValue.drop 16
    oeValue := rhs.oeValue.take 16 ++ uninit.oeValue.drop 16 }

/-- The `CreateEncryptionOutputStream` virtual, dispatched on the
algorithm: `PdfEncryptRC4::CreateEncryptionOutputStream` builds an RC4
output stream keyed with the derived object key, while both
`PdfEncryptAESV2::CreateEncryptionOutputStream` and
`PdfEncryptAESV3::CreateEncryptionOutputStream` unconditionally raise
`InternalLogic` ("CreateEncryptionOutputStream does not yet support
AESV2"/"AESV3").  The payload of a successful creation is the stream key
material `(object key digest, effective key length)`. -/
def CreateEncryptionOutputStream (prims : CryptoPrims)
    (algorithm : PdfEncryptionAlgorithm) (encryptionKey : List Nat)
    (keyLength objNum genNum : Nat) : Except PdfErrorCode (List Nat × Nat) :=
  match algorithm with
  | .RC4V1 | .RC4V2 =>
    .ok (PdfEncryptMD5Base.CreateObjKey prims algorithm encryptionKey
      keyLength objNum genNum)
  | .AESV2 => .error .InternalLogic
  | .AESV3R5 | .AESV3R6 => .error .InternalLogic

/-! ### Concrete stand-in primitives

Used to instantiate witnesses and counterexamples.  They are cheap,
executable functions with the interface properties the theorems assume
(fixed output lengths, byte-valued outputs, involutive stream cipher). -/

/-- A cheap deterministic stand-in hash with `outLen` output bytes. -/
def sampleHash (outLen : Nat) (l : List Nat) : List Nat :=
  (List.range outLen).map fun i => l.foldl (fun a b => (a * 31 + b) % 256) ((i + 7) % 256)

/-- Concrete primitives: the stream cipher XORs with the first key byte
(an involution, like RC4), the hashes are `sampleHash` of the matching
output size, the block ciphers shift bytes by a key-derived amount, and
password preparation is the identity. -/
def samplePrims : CryptoPrims where
  md5 := sampleHash 16
  rc4 := fun k x => x.map fun b => b ^^^ k.headD 0
  sha256 := sampleHash 32
  sha384 := sampleHash 48
  sha512 := sampleHash 64
  aesEnc := fun k iv d => d.map fun b => (b + k.headD 0 + iv.headD 0) % 256
  aesDec := fun k iv d => d.map fun b => (b + 512 - (k.headD 0 + iv.headD 0) % 256) % 256
  saslprep := fun l => some l

theorem samplePrims_rc4_involutive (k x : List Nat) :
    samplePrims.rc4 k (samplePrims.rc4 k x) = x := by
  simp only [samplePrims, List.map_map]
  have h : ((fun b => b ^^^ k.headD 0) ∘ fun b => b ^^^ k.headD 0) = id := by
    funext b
    simp [Nat.xor_assoc]
  rw [h, List.map_id]

theorem sampleHash_length (outLen : Nat) (l : List Nat) :
    (sampleHash outLen l).length = outLen := by
  simp [sampleHash]

theorem samplePrims_aesEnc_bytes (k iv d : List Nat) :
    ∀ b ∈ samplePrims.aesEnc k iv d, b < 256 := by
  intro b hb
  simp only [samplePrims, List.mem_map] at hb
  obtain ⟨a, _, rfl⟩ := hb
  exact Nat.mod_lt _ (by omega)

/-! ### Helper lemmas -/

theorem CheckKey_self (x : List Nat) (n : Nat) : CheckKey x x n = true := by
  simp [CheckKey]

theorem CheckKey_append_self (x r : List Nat) (n : Nat) (h : n ≤ x.length) :
    CheckKey x (x ++ r) n = true := by
  simp only [CheckKey, List.all_eq_true, List.mem_range]
  intro k hk
  rw [List.getD_append _ _ _ _ (by omega)]
  exact beq_self_eq_true _

/-- Twenty stream-cipher rounds applied with keys `mk 0, …, mk 19` and then
with keys `mk 19, …, mk 0` cancel, provided each round is an involution. -/
theorem foldl_range20_involutive (rc4 : List Nat → List Nat → List Nat)
    (hinv : ∀ k x, rc4 k (rc4 k x) = x) (mk : Nat → List Nat) (x : List Nat) :
    (List.range 20).foldl (fun acc i => rc4 (mk (19 - i)) acc)
      ((List.range 20).foldl (fun acc i => rc4 (mk i) acc) x) = x := by
  simp only [List.range_succ, List.range_zero, List.foldl_append, List.foldl_cons,
    List.foldl_nil, List.nil_append]
  norm_num
  simp only [hinv]

/-- Running `ComputeOwnerKey` in authenticate mode (round keys
`digest XOR (19 - i)`) on an O value produced in encrypt mode (round keys
`digest XOR i`) recovers the padded user password, for every revision,
provided the stream cipher is an involution (which RC4 is: it XORs the
data with a keystream derived from the key alone). -/
theorem ComputeOwnerKey_authenticate_inverse (prims : CryptoPrims)
    (hinv : ∀ k x, prims.rc4 k (prims.rc4 k x) = x)
    (userPad ownerPad : List Nat) (keyLength revision : Nat) :
    PdfEncryptMD5Base.ComputeOwnerKey prims
      (PdfEncryptMD5Base.ComputeOwnerKey prims userPad ownerPad keyLength revision false)
      ownerPad keyLength revision true = userPad := by
  by_cases h : revision = 3 ∨ revision = 4
  · simp only [PdfEncryptMD5Base.ComputeOwnerKey, if_pos h, if_true,
      Bool.false_eq_true, if_false]
    exact foldl_range20_involutive prims.rc4 hinv
      (fun n => (List.range keyLength).map fun j =>
        ((fun d => prims.md5 (d.take keyLength))^[50] (prims.md5 ownerPad)).getD j 0 ^^^ n)
      userPad
  · simp only [PdfEncryptMD5Base.ComputeOwnerKey, if_neg h]
    exact hinv _ _

/-- Authenticating with the user password of a descriptor created from
scratch always yields `User` in the RC4/AESV2 family: the same
`ComputeEncryptionKey` computation reproduces the stored U value. -/
theorem famA_authenticate_user (prims : CryptoPrims) (up op docId : List Nat)
    (p kl rev : Nat) (meta : Bool) :
    (PdfEncryptRC4.Authenticate prims up docId
      (PdfEncryptRC4.GenerateEncryptionKey prims up op docId p kl rev meta).2.1
      (PdfEncryptRC4.GenerateEncryptionKey prims up op docId p kl rev meta).1
      p kl rev meta).1 = PdfAuthResult.User := by
  simp only [PdfEncryptRC4.Authenticate, PdfEncryptRC4.GenerateEncryptionKey,
    CheckKey_self, if_true]

/-- Authenticating with the owner password of a descriptor created from
scratch yields `Owner` in the RC4/AESV2 family, unless the owner password
also passes the user-password check, in which case it yields `User`;
it never fails.  Needs the RC4 involution property to invert the
owner-key rounds. -/
theorem famA_authenticate_owner (prims : CryptoPrims)
    (hinv : ∀ k x, prims.rc4 k (prims.rc4 k x) = x)
    (up op docId : List Nat) (p kl rev : Nat) (meta : Bool) :
    (PdfEncryptRC4.Authenticate prims op docId
      (PdfEncryptRC4.GenerateEncryptionKey prims up op docId p kl rev meta).2.1
      (PdfEncryptRC4.GenerateEncryptionKey prims up op docId p kl rev meta).1
      p kl rev meta).1 = PdfAuthResult.Owner ∨
    (PdfEncryptRC4.Authenticate prims op docId
      (PdfEncryptRC4.GenerateEncryptionKey prims up op docId p kl rev meta).2.1
      (PdfEncryptRC4.GenerateEncryptionKey prims up op docId p kl rev meta).1
      p kl rev meta).1 = PdfAuthResult.User := by
  simp only [PdfEncryptRC4.Authenticate, PdfEncryptRC4.GenerateEncryptionKey]
  by_cases hu : CheckKey
      (PdfEncryptMD5Base.ComputeEncryptionKey prims docId (PadPassword op)
        (PdfEncryptMD5Base.ComputeOwnerKey prims (PadPassword up) (PadPassword op)
          kl rev false) p kl rev meta).1
      (PdfEncryptMD5Base.ComputeEncryptionKey prims docId (PadPassword up)
        (PdfEncryptMD5Base.ComputeOwnerKey prims (PadPassword up) (PadPassword op)
          kl rev false) p kl rev meta).1 kl = true
  · right
    simp only [hu, if_true]
  · left
    simp only [hu, if_false, Bool.false_eq_true,
      ComputeOwnerKey_authenticate_inverse prims hinv, CheckKey_self, if_true]

theorem getD_lt_256 (l : List Nat) (n : Nat) (h : ∀ b ∈ l, b < 256) :
    l.getD n 0 < 256 := by
  by_cases hn : n < l.length
  · rw [List.getD_eq_getElem l 0 hn]
    exact h _ (List.getElem_mem hn)
  · rw [List.getD_eq_default l 0 (le_of_not_lt hn)]
    omega

/-- Every round of the hardening loop produces a block of at least 32
bytes (a SHA-256, SHA-384 or SHA-512 digest). -/
theorem hashRound_block_ge (prims : CryptoPrims)
    (h256 : ∀ l, (prims.sha256 l).length = 32)
    (h384 : ∀ l, (prims.sha384 l).length = 48)
    (h512 : ∀ l, (prims.sha512 l).length = 64)
    (pswd : List Nat) (uv : Option (List Nat)) (st : PdfEncryptAESV3.HashLoopState) :
    32 ≤ (PdfEncryptAESV3.hashRound prims pswd uv st).block.length := by
  simp only [PdfEncryptAESV3.hashRound]
  split
  · rw [h256]
  · split
    · rw [h384]
      omega
    · rw [h512]
      omega

/-- The data buffer written by a hardening round holds bytes (< 256),
being the output of the AES encryption. -/
theorem hashRound_data_bytes (prims : CryptoPrims)
    (hbytes : ∀ k iv d b, b ∈ prims.aesEnc k iv d → b < 256)
    (pswd : List Nat) (uv : Option (List Nat)) (st : PdfEncryptAESV3.HashLoopState) :
    ∀ b ∈ (PdfEncryptAESV3.hashRound prims pswd uv st).data, b < 256 := by
  simp only [PdfEncryptAESV3.hashRound]
  exact hbytes _ _ _

/-- The hardening loop preserves the lower bound on the block length. -/
theorem hashLoop_block_ge (prims : CryptoPrims)
    (h256 : ∀ l, (prims.sha256 l).length = 32)
    (h384 : ∀ l, (prims.sha384 l).length = 48)
    (h512 : ∀ l, (prims.sha512 l).length = 64)
    (pswd : List Nat) (uv : Option (List Nat)) :
    ∀ fuel i st, 32 ≤ st.block.length →
      ∀ n st2, PdfEncryptAESV3.hashLoop prims pswd uv fuel i st = some (n, st2) →
        32 ≤ st2.block.length := by
  intro fuel
  induction fuel with
  | zero =>
    intro i st hst n st2 h
    simp [PdfEncryptAESV3.hashLoop] at h
  | succ fuel ih =>
    intro i st hst n st2 h
    rw [PdfEncryptAESV3.hashLoop] at h
    split at h
    · exact ih (i + 1) _ (hashRound_block_ge prims h256 h384 h512 pswd uv st) n st2 h
    · injection h with h2
      injection h2 with h3 h4
      rw [← h4]
      exact hst

/-- `computeHash` always produces exactly 32 bytes. -/
theorem computeHash_length (prims : CryptoPrims)
    (h256 : ∀ l, (prims.sha256 l).length = 32)
    (h384 : ∀ l, (prims.sha384 l).length = 48)
    (h512 : ∀ l, (prims.sha512 l).length = 64)
    (pswd : List Nat) (rev : Nat) (salt : List Nat) (uv : Option (List Nat)) :
    (PdfEncryptAESV3.computeHash prims pswd rev salt uv).length = 32 := by
  unfold PdfEncryptAESV3.computeHash
  by_cases h : 5 < rev
  · rw [if_pos h]
    cases hl : PdfEncryptAESV3.hashLoop prims pswd uv 288 0
        (PdfEncryptAESV3.hashLoopInit prims pswd salt uv) with
    | none =>
      simp [List.length_take, h256]
    | some r =>
      obtain ⟨n, st2⟩ := r
      have hge : 32 ≤ st2.block.length := by
        apply hashLoop_block_ge prims h256 h384 h512 pswd uv 288 0
          (PdfEncryptAESV3.hashLoopInit prims pswd salt uv) _ n st2 hl
        simp [PdfEncryptAESV3.hashLoopInit, List.length_take, h256]
      simp only [List.length_take]
      omega
  · rw [if_neg h]
    exact h256 _

/-- Core of the family-B user authentication: when the stored U value has
the shape `hash ++ validation salt ++ key salt` produced from the same
prepared password, authentication yields `User`. -/
theorem famB_authenticate_user_core (prims : CryptoPrims)
    (password pswd : List Nat) (rev : Nat) (vSalt kSalt oV ueV oeV ek0 : List Nat)
    (hprep : PdfEncryptAESV3.preprocessPassword prims password = some pswd)
    (hlen : (PdfEncryptAESV3.computeHash prims pswd rev vSalt none).length = 32)
    (hv : vSalt.length = 8) :
    ∃ ek, PdfEncryptAESV3.Authenticate prims password
      ((PdfEncryptAESV3.computeHash prims pswd rev vSalt none).take 32 ++ vSalt ++ kSalt)
      oV ueV oeV rev ek0 = some (PdfAuthResult.User, ek) := by
  rw [List.append_assoc]
  have htake : (PdfEncryptAESV3.computeHash prims pswd rev vSalt none).take 32
      = PdfEncryptAESV3.computeHash prims pswd rev vSalt none := by
    apply List.take_of_length_le
    omega
  have hdrop : (PdfEncryptAESV3.computeHash prims pswd rev vSalt none
      ++ (vSalt ++ kSalt)).drop 32 = vSalt ++ kSalt := by
    rw [← hlen]
    exact List.drop_left _ _
  have htake8 : (vSalt ++ kSalt).take 8 = vSalt := by
    rw [← hv]
    exact List.take_left _ _
  simp only [PdfEncryptAESV3.Authenticate, hprep, hdrop, htake8, htake]
  rw [CheckKey_append_self _ _ _ (le_of_eq hlen.symm)]
  exact ⟨_, rfl⟩

/-- Core of the family-B owner authentication: when the stored O value has
the shape `hash ++ validation salt ++ key salt` produced from the same
prepared password hashing over the stored U value, authentication yields
`Owner`, unless the candidate already passes the user check, in which case
it yields `User`; it never fails. -/
theorem famB_authenticate_owner_core (prims : CryptoPrims)
    (password pswd : List Nat) (rev : Nat) (vSalt kSalt uV ueV oeV ek0 : List Nat)
    (hprep : PdfEncryptAESV3.preprocessPassword prims password = some pswd)
    (hlen : (PdfEncryptAESV3.computeHash prims pswd rev vSalt (some uV)).length = 32)
    (hv : vSalt.length = 8) :
    ∃ r ek, PdfEncryptAESV3.Authenticate prims password uV
      ((PdfEncryptAESV3.computeHash prims pswd rev vSalt (some uV)).take 32 ++ vSalt ++ kSalt)
      ueV oeV rev ek0 = some (r, ek) ∧
      (r = PdfAuthResult.Owner ∨ r = PdfAuthResult.User) := by
  rw [List.append_assoc]
  have htake : (PdfEncryptAESV3.computeHash prims pswd rev vSalt (some uV)).take 32
      = PdfEncryptAESV3.computeHash prims pswd rev vSalt (some uV) := by
    apply List.take_of_length_le
    omega
  have hdrop : (PdfEncryptAESV3.computeHash prims pswd rev vSalt (some uV)
      ++ (vSalt ++ kSalt)).drop 32 = vSalt ++ kSalt := by
    rw [← hlen]
    exact List.drop_left _ _
  have htake8 : (vSalt ++ kSalt).take 8 = vSalt := by
    rw [← hv]
    exact List.take_left _ _
  simp only [PdfEncryptAESV3.Authenticate, hprep, hdrop, htake8, htake]
  by_cases hu : CheckKey
      (PdfEncryptAESV3.computeHash prims pswd rev ((uV.drop 32).take 8) none) uV 32 = true
  · simp only [hu, if_true]
    exact ⟨PdfAuthResult.User, _, rfl, Or.inr rfl⟩
  · simp only [hu, if_false, Bool.false_eq_true]
    rw [CheckKey_append_self _ _ _ (le_of_eq hlen.symm)]
    exact ⟨PdfAuthResult.Owner, _, rfl, Or.inl rfl⟩

/-- The hardening loop exits: starting at index `i ≤ 287` with at least
`288 - i` fuel and byte-valued data, the loop returns at an index between
64 and 287.  The loop condition `i < 64 ∨ i < 32 + lastByte` fails at
latest at `i = 287` because the last data byte is at most 255. -/
theorem hashLoop_exits (prims : CryptoPrims)
    (hbytes : ∀ k iv d b, b ∈ prims.aesEnc k iv d → b < 256)
    (pswd : List Nat) (uv : Option (List Nat)) :
    ∀ fuel i st, 288 ≤ i + fuel → i ≤ 287 → (∀ b ∈ st.data, b < 256) →
      ∃ n st2, PdfEncryptAESV3.hashLoop prims pswd uv fuel i st = some (n, st2) ∧
        64 ≤ n ∧ n ≤ 287 := by
  intro fuel
  induction fuel with
  | zero =>
    intro i st hfuel hi hdata
    omega
  | succ fuel ih =>
    intro i st hfuel hi hdata
    rw [PdfEncryptAESV3.hashLoop]
    split
    case isTrue hcond =>
      have hlast : st.data.getD (st.dataLen - 1) 0 < 256 := getD_lt_256 _ _ hdata
      have hi2 : i < 287 := by
        rcases hcond with h | h <;> omega
      exact ih (i + 1) (PdfEncryptAESV3.hashRound prims pswd uv st)
        (by omega) (by omega) (hashRound_data_bytes prims hbytes pswd uv st)
    case isFalse hcond =>
      push_neg at hcond
      exact ⟨i, st, rfl, by omega, hi⟩

/-- Clearing the low four bits of a 64-bit value with the mask
`~15 = 2^64 - 16` rounds it down to a multiple of 16. -/
theorem land_mask16 (m : Nat) (hm : m < 2 ^ 64) :
    m &&& (2 ^ 64 - 16) = 16 * (m / 16) := by
  have h1 : (2 ^ 64 - 16 : Nat) = (2 ^ 60 - 1) * 2 ^ 4 := by norm_num
  apply Nat.eq_of_testBit_eq
  intro i
  rw [Nat.testBit_and, h1, ← Nat.shiftLeft_eq, Nat.testBit_shiftLeft]
  rcases lt_or_le i 4 with hi | hi
  · have hd : (decide (4 ≤ i)) = false := by
      simp
      omega
    rw [hd]
    simp only [Bool.false_and, Bool.and_false]
    have h16 : 16 * (m / 16) = (m / 16) * 2 ^ 4 := by ring
    rw [h16, ← Nat.shiftLeft_eq, Nat.testBit_shiftLeft]
    simp
    omega
  · have hd : (decide (4 ≤ i)) = true := by simpa
    rw [hd]
    simp only [Bool.true_and]
    have hshr : m / 16 = m >>> 4 := by
      rw [Nat.shiftRight_eq_div_pow]
    rcases lt_or_le i 64 with hi2 | hi2
    · have hbit : (2 ^ 60 - 1 : Nat).testBit (i - 4) = true := by
        rw [Nat.testBit_two_pow_sub_one]
        simp
        omega
      rw [hbit, Bool.and_true]
      have h16 : 16 * (m / 16) = (m / 16) * 2 ^ 4 := by ring
      rw [h16, ← Nat.shiftLeft_eq, Nat.testBit_shiftLeft, hd]
      simp only [Bool.true_and]
      rw [hshr, Nat.testBit_shiftRight]
      congr 1
      omega
    · have hbit : (2 ^ 60 - 1 : Nat).testBit (i - 4) = false := by
        rw [Nat.testBit_two_pow_sub_one]
        simp
        omega
      rw [hbit, Bool.and_false]
      have h16 : 16 * (m / 16) = (m / 16) * 2 ^ 4 := by ring
      rw [h16, ← Nat.shiftLeft_eq, Nat.testBit_shiftLeft, hd]
      simp only [Bool.true_and]
      rw [hshr, Nat.testBit_shiftRight]
      symm
      apply Nat.testBit_eq_false_of_lt
      calc m < 2 ^ 64 := hm
      _ ≤ 2 ^ (4 + (i - 4)) := by
        apply Nat.pow_le_pow_right <;> omega

/-! ### Claim theorems -/

/-- C2: for Family A revision 3 or 4, running the owner-key procedure in
authenticate mode (20 stream-cipher rounds with keys `digest XOR (19 - i)`,
i.e. in reverse key order) on the O value computed from the same pair of
passwords reproduces the original padded user password, which is exactly
32 bytes long.  The hypothesis is the involution property of the external
RC4 stream cipher. -/
theorem claim2_owner_key_inverse (prims : CryptoPrims)
    (hinv : ∀ k x, prims.rc4 k (prims.rc4 k x) = x)
    (userPassword ownerPassword : List Nat) (keyLength revision : Nat)
    (hrev : revision = 3 ∨ revision = 4) :
    PdfEncryptMD5Base.ComputeOwnerKey prims
      (PdfEncryptMD5Base.ComputeOwnerKey prims (PadPassword userPassword)
        (PadPassword ownerPassword) keyLength revision false)
      (PadPassword ownerPassword) keyLength revision true
      = PadPassword userPassword
    ∧ (PadPassword userPassword).length = 32 := by
  refine ⟨ComputeOwnerKey_authenticate_inverse prims hinv _ _ _ _, ?_⟩
  simp only [PadPassword, List.length_append, List.length_take]
  have : paddingBytes.length = 32 := by decide
  omega

theorem claim2_witness :
    ((3 : Nat) = 3 ∨ (3 : Nat) = 4) ∧
    (PdfEncryptMD5Base.ComputeOwnerKey samplePrims
      (PdfEncryptMD5Base.ComputeOwnerKey samplePrims (PadPassword [0x75, 0x73])
        (PadPassword [0x6F, 0x77]) 16 3 false)
      (PadPassword [0x6F, 0x77]) 16 3 true
      = PadPassword [0x75, 0x73]
    ∧ (PadPassword [0x75, 0x73]).length = 32) :=
  ⟨Or.inl rfl,
   claim2_owner_key_inverse samplePrims samplePrims_rc4_involutive
     [0x75, 0x73] [0x6F, 0x77] 16 3 (Or.inl rfl)⟩

/-- C6: for every password, salt and optional U value, the revision-6
hardening loop of `computeHash` terminates: with the loop condition
`i < 64 ∨ i < 32 + (last byte of the previous round's expanded data)` it
exits after at least 64 and at most 287 rounds (fuel 288 always suffices),
the result is the final block truncated to 32 bytes, and each round hashes
the encrypted data with SHA-256 when its block length is 32, SHA-384 when
it is 48, and SHA-512 otherwise.  The hypothesis is that the external AES
encryption outputs bytes. -/
theorem claim6_hardening_loop_terminates (prims : CryptoPrims)
    (hbytes : ∀ k iv d b, b ∈ prims.aesEnc k iv d → b < 256)
    (pswd salt : List Nat) (uv : Option (List Nat)) (revision : Nat)
    (hrev : 5 < revision) :
    (∃ rounds st, PdfEncryptAESV3.hashLoop prims pswd uv 288 0
        (PdfEncryptAESV3.hashLoopInit prims pswd salt uv) = some (rounds, st)
      ∧ 64 ≤ rounds ∧ rounds ≤ 287
      ∧ PdfEncryptAESV3.computeHash prims pswd revision salt uv = st.block.take 32)
    ∧ ∀ st : PdfEncryptAESV3.HashLoopState,
        ((PdfEncryptAESV3.hashRound prims pswd uv st).blockLen = 32 →
          (PdfEncryptAESV3.hashRound prims pswd uv st).block
            = prims.sha256 (PdfEncryptAESV3.hashRound prims pswd uv st).data)
        ∧ ((PdfEncryptAESV3.hashRound prims pswd uv st).blockLen = 48 →
          (PdfEncryptAESV3.hashRound prims pswd uv st).block
            = prims.sha384 (PdfEncryptAESV3.hashRound prims pswd uv st).data)
        ∧ ((PdfEncryptAESV3.hashRound prims pswd uv st).blockLen ≠ 32 →
          (PdfEncryptAESV3.hashRound prims pswd uv st).blockLen ≠ 48 →
          (PdfEncryptAESV3.hashRound prims pswd uv st).block
            = prims.sha512 (PdfEncryptAESV3.hashRound prims pswd uv st).data) := by
  constructor
  · obtain ⟨n, st2, hsome, h64, h287⟩ :=
      hashLoop_exits prims hbytes pswd uv 288 0
        (PdfEncryptAESV3.hashLoopInit prims pswd salt uv) (by omega) (by omega)
        (by simp [PdfEncryptAESV3.hashLoopInit])
    refine ⟨n, st2, hsome, h64, h287, ?_⟩
    unfold PdfEncryptAESV3.computeHash
    rw [if_pos hrev, hsome]
  · intro st
    simp only [PdfEncryptAESV3.hashRound]
    set s := ((List.range 16).map fun j =>
      (prims.aesEnc (st.block.take 16) ((st.block.drop 16).take 16)
        ((List.replicate 64 (pswd ++ st.block.take st.blockLen ++
          (match uv with | some u => u.take 48 | none => []))).flatten)).getD j 0).sum
      with hs
    refine ⟨?_, ?_, ?_⟩
    · intro h32
      rw [if_pos h32]
    · intro h48
      have : ¬(32 + s % 3 * 16 = 32) := by omega
      rw [if_neg this, if_pos h48]
    · intro h32 h48
      rw [if_neg h32, if_neg h48]

theorem claim6_witness :
    (∀ k iv d b, b ∈ samplePrims.aesEnc k iv d → b < 256) ∧ (5 < 6) ∧
    ((∃ rounds st, PdfEncryptAESV3.hashLoop samplePrims [1, 2, 3] (some (List.replicate 48 7))
        288 0 (PdfEncryptAESV3.hashLoopInit samplePrims [1, 2, 3] [8, 8, 8, 8, 8, 8, 8, 8]
          (some (List.replicate 48 7))) = some (rounds, st)
      ∧ 64 ≤ rounds ∧ rounds ≤ 287
      ∧ PdfEncryptAESV3.computeHash samplePrims [1, 2, 3] 6 [8, 8, 8, 8, 8, 8, 8, 8]
          (some (List.replicate 48 7)) = st.block.take 32)) :=
  ⟨samplePrims_aesEnc_bytes, by omega,
   (claim6_hardening_loop_terminates samplePrims samplePrims_aesEnc_bytes
     [1, 2, 3] [8, 8, 8, 8, 8, 8, 8, 8] (some (List.replicate 48 7)) 6 (by omega)).1⟩

/-- C7: for every plaintext length `n` (below the `size_t` overflow bound),
the block-mode stream length for both AES variants equals
`((n + 15) & ~15) + 16` for the initialization vector, plus an extra 16
when `n` is itself a multiple of 16 — equivalently `16 * (n / 16 + 2)` —
while the RC4 running-state length equals `n`. -/
theorem claim7_stream_length (n : Nat) (h : n + 32 < 2 ^ 64) :
    PdfEncryptAESV2.CalculateStreamLength n
      = ((n + 15) &&& (2 ^ 64 - 16)) + 16 + (if n % 16 = 0 then 16 else 0)
    ∧ PdfEncryptAESV3.CalculateStreamLength n
      = ((n + 15) &&& (2 ^ 64 - 16)) + 16 + (if n % 16 = 0 then 16 else 0)
    ∧ PdfEncryptAESV2.CalculateStreamLength n = 16 * (n / 16 + 2)
    ∧ PdfEncryptRC4.CalculateStreamLength n = n := by
  have h15 : (n + 15) % 2 ^ 64 = n + 15 := Nat.mod_eq_of_lt (by omega)
  have hmask := land_mask16 (n + 15) (by omega)
  have hsame : PdfEncryptAESV3.CalculateStreamLength n
      = PdfEncryptAESV2.CalculateStreamLength n := rfl
  have hmain : PdfEncryptAESV2.CalculateStreamLength n
      = ((n + 15) &&& (2 ^ 64 - 16)) + 16 + (if n % 16 = 0 then 16 else 0) := by
    simp only [PdfEncryptAESV2.CalculateStreamLength, h15, hmask]
    have hmod1 : (16 * ((n + 15) / 16) + 16) % 2 ^ 64 = 16 * ((n + 15) / 16) + 16 :=
      Nat.mod_eq_of_lt (by omega)
    rw [hmod1]
    by_cases h16 : n % 16 = 0
    · rw [if_pos h16, if_pos h16, Nat.mod_eq_of_lt (by omega)]
    · rw [if_neg h16, if_neg h16]
  have hclean : PdfEncryptAESV2.CalculateStreamLength n = 16 * (n / 16 + 2) := by
    rw [hmain, hmask]
    by_cases h16 : n % 16 = 0
    · rw [if_pos h16]
      omega
    · rw [if_neg h16]
      omega
  exact ⟨hmain, hsame.trans hmain, hclean, rfl⟩

theorem claim7_witness :
    (20 + 32 < 2 ^ 64) ∧
    (PdfEncryptAESV2.CalculateStreamLength 20
        = ((20 + 15) &&& (2 ^ 64 - 16)) + 16 + (if 20 % 16 = 0 then 16 else 0)
      ∧ PdfEncryptAESV3.CalculateStreamLength 20
        = ((20 + 15) &&& (2 ^ 64 - 16)) + 16 + (if 20 % 16 = 0 then 16 else 0)
      ∧ PdfEncryptAESV2.CalculateStreamLength 20 = 16 * (20 / 16 + 2)
      ∧ PdfEncryptRC4.CalculateStreamLength 20 = 20) :=
  ⟨by norm_num, claim7_stream_length 20 (by norm_num)⟩

/-- First `n` entries of a list read through `getD`, as built by the
`nkey[j] = encryptionKey[j]` loop of `CreateObjKey`. -/
theorem range_map_getD (l : List Nat) (n : Nat) (h : n ≤ l.length) :
    (List.range n).map (fun j => l.getD j 0) = l.take n := by
  induction n with
  | zero => simp
  | succ n ih =>
    rw [List.range_succ, List.map_append, ih (by omega)]
    simp only [List.map_cons, List.map_nil]
    rw [List.take_succ]
    congr 1
    have hn : n < l.length := by omega
    rw [List.getD_eq_getElem l 0 hn, List.getElem?_eq_getElem hn]
    rfl

theorem getD_range_map (f : Nat → Nat) (n i : Nat) (h : i < n) :
    ((List.range n).map f).getD i 0 = f i := by
  rw [List.getD_eq_getElem _ _ (by simpa)]
  simp

/-- C4: in the RC4 and AES-128 families the per-object key is the MD5 hash
of the first `keyLength` key bytes, the low 3 bytes of the object number
(little endian), the low 2 bytes of the generation number (little endian)
and — only for AES-128 — the fixed salt `0x73 0x41 0x6C 0x54`, with
effective length `min(keyLength + 5, 16)`; the AES-256 family derives no
per-object key and uses the 32-byte document key unchanged for every
object reference. -/
theorem claim4_object_key_derivation (prims : CryptoPrims) (encryptionKey : List Nat)
    (keyLength objNum genNum : Nat) (hk : keyLength ≤ encryptionKey.length) :
    (∀ alg, alg = PdfEncryptionAlgorithm.RC4V1 ∨ alg = PdfEncryptionAlgorithm.RC4V2 →
      PdfEncryptMD5Base.CreateObjKey prims alg encryptionKey keyLength objNum genNum
        = (prims.md5 (encryptionKey.take keyLength ++
            [0xFF &&& objNum, 0xFF &&& (objNum >>> 8), 0xFF &&& (objNum >>> 16),
             0xFF &&& genNum, 0xFF &&& (genNum >>> 8)]),
           min (keyLength + 5) 16))
    ∧ PdfEncryptMD5Base.CreateObjKey prims PdfEncryptionAlgorithm.AESV2
        encryptionKey keyLength objNum genNum
        = (prims.md5 (encryptionKey.take keyLength ++
            [0xFF &&& objNum, 0xFF &&& (objNum >>> 8), 0xFF &&& (objNum >>> 16),
             0xFF &&& genNum, 0xFF &&& (genNum >>> 8)] ++ [0x73, 0x41, 0x6C, 0x54]),
           min (keyLength + 5) 16)
    ∧ (∀ n2 g2, PdfEncryptAESV3.CreateEncryptionInputStream encryptionKey objNum genNum
        = PdfEncryptAESV3.CreateEncryptionInputStream encryptionKey n2 g2)
    ∧ PdfEncryptAESV3.CreateEncryptionInputStream encryptionKey objNum genNum
        = (encryptionKey, 32) := by
  have hmin : (if keyLength ≤ 11 then keyLength + 5 else 16) = min (keyLength + 5) 16 := by
    split <;> omega
  refine ⟨?_, ?_, fun n2 g2 => rfl, rfl⟩
  · intro alg halg
    rcases halg with rfl | rfl <;>
      simp only [PdfEncryptMD5Base.CreateObjKey, range_map_getD encryptionKey keyLength hk,
        reduceCtorEq, if_false, List.append_nil, hmin]
  · simp only [PdfEncryptMD5Base.CreateObjKey, range_map_getD encryptionKey keyLength hk,
      hmin]
    simp [List.append_assoc]

theorem claim4_witness :
    (16 ≤ (List.replicate 16 2 : List Nat).length) ∧
    PdfEncryptMD5Base.CreateObjKey samplePrims PdfEncryptionAlgorithm.AESV2
        (List.replicate 16 2) 16 5 7
      = (samplePrims.md5 ((List.replicate 16 2 : List Nat).take 16 ++
          [0xFF &&& 5, 0xFF &&& (5 >>> 8), 0xFF &&& (5 >>> 16),
           0xFF &&& 7, 0xFF &&& (7 >>> 8)] ++ [0x73, 0x41, 0x6C, 0x54]),
         min (16 + 5) 16) :=
  ⟨by simp,
   (claim4_object_key_derivation samplePrims (List.replicate 16 2) 16 5 7 (by simp)).2.1⟩

/-- C3 (amended): creating an encryption output stream is implemented only
for the RC4 variants (which build an RC4 stream keyed with the derived
object key); for both the AES-128 (AESV2) and AES-256 (AESV3) variants it
always fails, for every context and object reference, and the error raised
is `InternalLogic` ("CreateEncryptionOutputStream does not yet support
AESV2"/"AESV3"), not `NotImplemented`. -/
theorem claim3_output_stream_support (prims : CryptoPrims) (encryptionKey : List Nat)
    (keyLength objNum genNum : Nat) :
    CreateEncryptionOutputStream prims PdfEncryptionAlgorithm.AESV2
        encryptionKey keyLength objNum genNum = .error .InternalLogic
    ∧ CreateEncryptionOutputStream prims PdfEncryptionAlgorithm.AESV3R5
        encryptionKey keyLength objNum genNum = .error .InternalLogic
    ∧ CreateEncryptionOutputStream prims PdfEncryptionAlgorithm.AESV3R6
        encryptionKey keyLength objNum genNum = .error .InternalLogic
    ∧ CreateEncryptionOutputStream prims PdfEncryptionAlgorithm.RC4V1
        encryptionKey keyLength objNum genNum
        = .ok (PdfEncryptMD5Base.CreateObjKey prims PdfEncryptionAlgorithm.RC4V1
            encryptionKey keyLength objNum genNum)
    ∧ CreateEncryptionOutputStream prims PdfEncryptionAlgorithm.RC4V2
        encryptionKey keyLength objNum genNum
        = .ok (PdfEncryptMD5Base.CreateObjKey prims PdfEncryptionAlgorithm.RC4V2
            encryptionKey keyLength objNum genNum)
    ∧ PdfErrorCode.InternalLogic ≠ PdfErrorCode.NotImplemented :=
  ⟨rfl, rfl, rfl, rfl, rfl, by decide⟩

theorem claim3_counterexample :
    CreateEncryptionOutputStream samplePrims PdfEncryptionAlgorithm.AESV2
        (List.replicate 16 1) 16 1 0 = Except.error PdfErrorCode.InternalLogic
    ∧ CreateEncryptionOutputStream samplePrims PdfEncryptionAlgorithm.AESV3R6
        (List.replicate 32 1) 32 1 0 = Except.error PdfErrorCode.InternalLogic
    ∧ PdfErrorCode.InternalLogic ≠ PdfErrorCode.NotImplemented :=
  ⟨rfl, rfl, by decide⟩

/-- C9: evaluating the AESV3 copy constructor at a concrete descriptor
shows that only the first 16 bytes of UE and OE are copied (all three
`memcpy` calls use `std::size(m_permsValue)` = 16), so the copy's UE and
OE differ from the original's whenever the original's bytes 16..31 differ
from the indeterminate contents of the destination arrays; Perms, being
itself 16 bytes, is copied in full. -/
theorem claim9_copy_bug_eval :
    (PdfEncryptAESV3.copyFrom
        { ueValue := List.replicate 32 0xAA, oeValue := List.replicate 32 0xBB,
          permsValue := List.replicate 16 0xCC }
        { ueValue := List.replicate 32 0, oeValue := List.replicate 32 0,
          permsValue := List.replicate 16 0 }).ueValue
      = List.replicate 16 0xAA ++ List.replicate 16 0
    ∧ (PdfEncryptAESV3.copyFrom
        { ueValue := List.replicate 32 0xAA, oeValue := List.replicate 32 0xBB,
          permsValue := List.replicate 16 0xCC }
        { ueValue := List.replicate 32 0, oeValue := List.replicate 32 0,
          permsValue := List.replicate 16 0 }).ueValue
      ≠ List.replicate 32 0xAA
    ∧ (PdfEncryptAESV3.copyFrom
        { ueValue := List.replicate 32 0xAA, oeValue := List.replicate 32 0xBB,
          permsValue := List.replicate 16 0xCC }
        { ueValue := List.replicate 32 0, oeValue := List.replicate 32 0,
          permsValue := List.replicate 16 0 }).oeValue
      ≠ List.replicate 32 0xBB
    ∧ (PdfEncryptAESV3.copyFrom
        { ueValue := List.replicate 32 0xAA, oeValue := List.replicate 32 0xBB,
          permsValue := List.replicate 16 0xCC }
        { ueValue := List.replicate 32 0, oeValue := List.replicate 32 0,
          permsValue := List.replicate 16 0 }).permsValue
      = List.replicate 16 0xCC := by
  refine ⟨by decide, by decide, by decide, by decide⟩

/-- C10: every descriptor created from plaintext passwords, in every
algorithm family, stores `P = protection OR 0xFFFFF0C0`
(`PERMS_DEFAULT | protection`). -/
theorem claim10_default_permissions (userPass ownerPass : List Nat) (protection : Nat) :
    (∀ alg kl s, PdfEncryptRC4.ofScratch userPass ownerPass protection alg kl = .ok s →
      s.pValue = protection ||| 0xFFFFF0C0)
    ∧ (PdfEncryptAESV2.ofScratch userPass ownerPass protection).pValue
        = protection ||| 0xFFFFF0C0
    ∧ ∀ revision, (PdfEncryptAESV3.ofScratch userPass ownerPass revision protection).pValue
        = protection ||| 0xFFFFF0C0 := by
  have hcomm : PERMS_DEFAULT ||| protection = protection ||| 0xFFFFF0C0 := by
    simp [PERMS_DEFAULT, Nat.lor_comm]
  refine ⟨?_, hcomm, fun revision => hcomm⟩
  intro alg kl s h
  have hval : s.pValue = PERMS_DEFAULT ||| protection := by
    cases alg
    case RC4V1 =>
      cases kl with
      | none =>
        cases h
        rfl
      | some kl0 =>
        simp only [PdfEncryptRC4.ofScratch] at h
        by_cases hkl : kl0 = 40
        · rw [if_pos hkl] at h
          cases h
          rfl
        · rw [if_neg hkl] at h
          exact Except.noConfusion h
    case RC4V2 =>
      cases kl with
      | none =>
        cases h
        rfl
      | some kl0 =>
        simp only [PdfEncryptRC4.ofScratch] at h
        by_cases hkl : 40 ≤ kl0 ∧ kl0 ≤ 128 ∧ kl0 % 8 = 0
        · rw [if_pos hkl] at h
          cases h
          rfl
        · rw [if_neg hkl] at h
          exact Except.noConfusion h
    case AESV2 => exact Except.noConfusion h
    case AESV3R5 => exact Except.noConfusion h
    case AESV3R6 => exact Except.noConfusion h
  rw [hval, hcomm]

theorem claim10_witness :
    (InitFromScratch [] [] PdfEncryptionAlgorithm.RC4V1 40 2
      (PERMS_DEFAULT ||| 4) true).pValue = 4 ||| 0xFFFFF0C0 :=
  (claim10_default_permissions [] [] 4).1 PdfEncryptionAlgorithm.RC4V1 none _ rfl

/-- C8 (amended): for AESV2 the 16 bytes written before the ciphertext are
the MD5 digest of the document identifier, so every encryption with the
same inputs produces the same IV bytes; for AESV3 they are 16 fresh
`rand() % 255` draws from the process-wide pseudo-random generator, so two
encryptions produce different IV bytes exactly when the corresponding
generator draws differ. -/
theorem claim8_initial_vector (prims : CryptoPrims) (encryptionKey : List Nat)
    (keyLength : Nat) (documentId inStr : List Nat) (objNum genNum : Nat)
    (rng : Nat → Nat) (pos : Nat)
    (hmd5 : (prims.md5 documentId).length = 16) :
    (PdfEncryptAESV2.Encrypt prims encryptionKey keyLength documentId inStr
        objNum genNum).take 16 = prims.md5 documentId
    ∧ (PdfEncryptAESV3.generateInitialVector rng pos).1
        = (List.range 16).map (fun i => rng (pos + i) % 255)
    ∧ (PdfEncryptAESV3.generateInitialVector rng pos).2 = pos + 16
    ∧ (PdfEncryptAESV3.Encrypt prims encryptionKey rng pos inStr).1.take 16
        = (PdfEncryptAESV3.generateInitialVector rng pos).1
    ∧ (∀ i, i < 16 → rng (pos + i) % 255 ≠ rng (pos + 16 + i) % 255 →
        (PdfEncryptAESV3.generateInitialVector rng pos).1
          ≠ (PdfEncryptAESV3.generateInitialVector rng (pos + 16)).1) := by
  have htake : (prims.md5 documentId).take 16 = prims.md5 documentId :=
    List.take_of_length_le (by omega)
  refine ⟨?_, rfl, rfl, ?_, ?_⟩
  · simp only [PdfEncryptAESV2.Encrypt, PdfEncryptAESV2.generateInitialVector, htake]
    rw [← hmd5]
    exact List.take_left _ _
  · simp only [PdfEncryptAESV3.Encrypt, PdfEncryptAESV3.generateInitialVector]
    have hlen : ((List.range 16).map fun i => rng (pos + i) % 255).length = 16 := by
      simp
    rw [← hlen]
    exact List.take_left _ _
  · intro i hi hne heq
    apply hne
    simp only [PdfEncryptAESV3.generateInitialVector] at heq
    have hc : ((List.range 16).map fun j => rng (pos + j) % 255).getD i 0
        = ((List.range 16).map fun j => rng (pos + 16 + j) % 255).getD i 0 := by
      rw [heq]
    rw [getD_range_map (fun j => rng (pos + j) % 255) 16 i hi,
        getD_range_map (fun j => rng (pos + 16 + j) % 255) 16 i hi] at hc
    exact hc

theorem claim8_counterexample :
    PdfEncryptAESV2.Encrypt samplePrims (List.replicate 16 2) 16 [1, 2, 3] [9, 9, 9] 1 0
      = PdfEncryptAESV2.Encrypt samplePrims (List.replicate 16 2) 16 [1, 2, 3] [9, 9, 9] 1 0
    ∧ (PdfEncryptAESV2.Encrypt samplePrims (List.replicate 16 2) 16 [1, 2, 3] [9, 9, 9]
        1 0).take 16 = samplePrims.md5 [1, 2, 3] :=
  ⟨rfl, by decide⟩

/-- C5: `CreateFromObject` follows the (V, R, CFM) selection table exactly
(all algorithms enabled, i.e. the RC4 legacy provider available): V=1 with
R=2 or 3 gives RC4 with a 40-bit key; V=2 with R=3, or CFM "V2", gives RC4
with the dictionary's Length (normalized, the identity on valid lengths);
V=4 with R=4 gives AES-128; V=5 with R=5 or 6 gives AES-256 revision 5 or
6; every other combination raises `UnsupportedFilter`, as does a missing
or non-"Standard" Filter entry. -/
theorem claim5_selection_table (hasRc4 : Bool) (d : PdfObjectDict) :
    (d.filter ≠ some "Standard" →
      CreateFromObject hasRc4 d = .error .UnsupportedFilter)
    ∧ (∀ v0 r0 p0 o0 u0, d.filter = some "Standard" → d.v = some v0 →
        d.r = some r0 → d.p = some p0 → d.o = some o0 → d.u = some u0 →
        hasRc4 = true → toUInt32 v0 = 1 → (toUInt32 r0 = 2 ∨ toUInt32 r0 = 3) →
        32 ≤ o0.length → 32 ≤ u0.length →
        CreateFromObject hasRc4 d = .ok {
          algorithm := PdfEncryptionAlgorithm.RC4V1, keyLength := 40,
          rValue := toUInt32 r0 % 256, pValue := toUInt32 p0,
          uValue := u0.take 32, oValue := o0.take 32,
          encryptMetadata := d.encryptMetadata.getD true })
    ∧ (∀ v0 r0 p0 o0 u0, d.filter = some "Standard" → d.v = some v0 →
        d.r = some r0 → d.p = some p0 → d.o = some o0 → d.u = some u0 →
        hasRc4 = true →
        ((toUInt32 v0 = 2 ∧ toUInt32 r0 = 3) ∨ d.cfm = some "V2") →
        ¬(toUInt32 v0 = 1 ∧ (toUInt32 r0 = 2 ∨ toUInt32 r0 = 3)) →
        32 ≤ o0.length → 32 ≤ u0.length →
        CreateFromObject hasRc4 d = .ok {
          algorithm := PdfEncryptionAlgorithm.RC4V2,
          keyLength := PdfEncryptRC4.normalizeKeyLength (toUInt32 (d.length.getD 0)),
          rValue := toUInt32 r0 % 256, pValue := toUInt32 p0,
          uValue := u0.take 32, oValue := o0.take 32,
          encryptMetadata := d.encryptMetadata.getD true })
    ∧ (∀ L, 40 ≤ L → L ≤ 128 → L % 8 = 0 → PdfEncryptRC4.normalizeKeyLength L = L)
    ∧ (∀ v0 r0 p0 o0 u0, d.filter = some "Standard" → d.v = some v0 →
        d.r = some r0 → d.p = some p0 → d.o = some o0 → d.u = some u0 →
        toUInt32 v0 = 4 → toUInt32 r0 = 4 → d.cfm ≠ some "V2" →
        32 ≤ o0.length → 32 ≤ u0.length →
        CreateFromObject hasRc4 d = .ok {
          algorithm := PdfEncryptionAlgorithm.AESV2, keyLength := 128,
          rValue := 4, pValue := toUInt32 p0,
          uValue := u0.take 32, oValue := o0.take 32,
          encryptMetadata := d.encryptMetadata.getD true })
    ∧ (∀ v0 r0 p0 o0 u0 pe oe ue, d.filter = some "Standard" → d.v = some v0 →
        d.r = some r0 → d.p = some p0 → d.o = some o0 → d.u = some u0 →
        d.perms = some pe → d.oe = some oe → d.ue = some ue →
        toUInt32 v0 = 5 → (toUInt32 r0 = 5 ∨ toUInt32 r0 = 6) →
        d.cfm ≠ some "V2" →
        48 ≤ u0.length → 48 ≤ o0.length → 32 ≤ ue.length → 32 ≤ oe.length →
        16 ≤ pe.length →
        CreateFromObject hasRc4 d = .ok {
          algorithm := if toUInt32 r0 = 6 then PdfEncryptionAlgorithm.AESV3R6
                       else PdfEncryptionAlgorithm.AESV3R5,
          keyLength := 256, rValue := toUInt32 r0 % 256, pValue := toUInt32 p0,
          uValue := u0.take 48, oValue := o0.take 48, encryptMetadata := true,
          ueValue := ue.take 32, oeValue := oe.take 32, permsValue := pe.take 16 })
    ∧ (∀ v0 r0 p0 o0 u0, d.filter = some "Standard" → d.v = some v0 →
        d.r = some r0 → d.p = some p0 → d.o = some o0 → d.u = some u0 →
        hasRc4 = true →
        ¬(toUInt32 v0 = 1 ∧ (toUInt32 r0 = 2 ∨ toUInt32 r0 = 3)) →
        ¬((toUInt32 v0 = 2 ∧ toUInt32 r0 = 3) ∨ d.cfm = some "V2") →
        ¬(toUInt32 v0 = 4 ∧ toUInt32 r0 = 4) →
        ¬(toUInt32 v0 = 5 ∧ (toUInt32 r0 = 5 ∨ toUInt32 r0 = 6)) →
        CreateFromObject hasRc4 d = .error .UnsupportedFilter) := by
  refine ⟨?_, ?_, ?_, ?_, ?_, ?_, ?_⟩
  · intro hf
    simp only [CreateFromObject, if_pos hf]
  · intro v0 r0 p0 o0 u0 hf hv hr hp ho hu hrc4 hv1 hr23 hos hus
    simp only [CreateFromObject, hf, hv, hr, hp, ho, hu, ne_eq, reduceIte,
      not_true_eq_false, if_false]
    rw [if_pos ⟨hv1, hr23, hrc4⟩]
    simp only [PdfEncryptRC4.fromValues]
    rw [if_neg (by omega), if_neg (by omega)]
    rfl
  · intro v0 r0 p0 o0 u0 hf hv hr hp ho hu hrc4 hor hn1 hos hus
    simp only [CreateFromObject, hf, hv, hr, hp, ho, hu, ne_eq, reduceIte,
      not_true_eq_false, if_false]
    rw [if_neg (fun hc => hn1 ⟨hc.1, hc.2.1⟩), if_pos ⟨hor, hrc4⟩]
    simp only [PdfEncryptRC4.fromValues]
    rw [if_neg (by omega), if_neg (by omega)]
  · intro L h40 h128 h8
    simp only [PdfEncryptRC4.normalizeKeyLength]
    omega
  · intro v0 r0 p0 o0 u0 hf hv hr hp ho hu hv4 hr4 hcfm hos hus
    simp only [CreateFromObject, hf, hv, hr, hp, ho, hu, ne_eq, reduceIte,
      not_true_eq_false, if_false]
    rw [if_neg (by rintro ⟨h1, -⟩; rw [hv4] at h1; exact absurd h1 (by norm_num)),
      if_neg (by
        rintro ⟨h2 | h2, -⟩
        · rw [hv4] at h2
          exact absurd h2.1 (by norm_num)
        · exact hcfm h2),
      if_pos ⟨hv4, hr4⟩]
    simp only [PdfEncryptAESV2.fromValues]
    rw [if_neg (by omega), if_neg (by omega)]
  · intro v0 r0 p0 o0 u0 pe oe ue hf hv hr hp ho hu hpe hoe hue hv5 hr56 hcfm
      hus hos hues hoes hpes
    simp only [CreateFromObject, hf, hv, hr, hp, ho, hu, hpe, hoe, hue, ne_eq,
      reduceIte, not_true_eq_false, if_false]
    rw [if_neg (by rintro ⟨h1, -⟩; rw [hv5] at h1; exact absurd h1 (by norm_num)),
      if_neg (by
        rintro ⟨h2 | h2, -⟩
        · rw [hv5] at h2
          exact absurd h2.1 (by norm_num)
        · exact hcfm h2),
      if_neg (by rintro ⟨h1, -⟩; rw [hv5] at h1; exact absurd h1 (by norm_num)),
      if_pos ⟨hv5, hr56⟩]
    simp only [PdfEncryptAESV3.fromValues]
    rw [if_neg (by omega), if_neg (by omega), if_neg (by omega), if_neg (by omega),
      if_neg (by omega)]
  · intro v0 r0 p0 o0 u0 hf hv hr hp ho hu hrc4 hn1 hn2 hn3 hn4
    simp only [CreateFromObject, hf, hv, hr, hp, ho, hu, ne_eq, reduceIte,
      not_true_eq_false, if_false]
    rw [if_neg (fun hc => hn1 ⟨hc.1, hc.2.1⟩), if_neg (fun hc => hn2 hc.1),
      if_neg hn3, if_neg hn4]

/-- Concrete encryption dictionary exercising the V=5/R=6 row of the
selection table. -/
def sampleDict : PdfObjectDict :=
  { filter := some "Standard", v := some 5, r := some 6, p := some 4080,
    o := some (List.replicate 48 1), u := some (List.replicate 48 2),
    length := none, encryptMetadata := none, cfm := none,
    perms := some (List.replicate 16 3), oe := some (List.replicate 32 4),
    ue := some (List.replicate 32 5) }

theorem claim5_witness :
    CreateFromObject true sampleDict = .ok {
      algorithm := if toUInt32 6 = 6 then PdfEncryptionAlgorithm.AESV3R6
                   else PdfEncryptionAlgorithm.AESV3R5,
      keyLength := 256, rValue := toUInt32 6 % 256, pValue := toUInt32 4080,
      uValue := (List.replicate 48 2).take 48, oValue := (List.replicate 48 1).take 48,
      encryptMetadata := true, ueValue := (List.replicate 32 5).take 32,
      oeValue := (List.replicate 32 4).take 32,
      permsValue := (List.replicate 16 3).take 16 } :=
  (claim5_selection_table true sampleDict).2.2.2.2.2.1 5 6 4080
    (List.replicate 48 1) (List.replicate 48 2) (List.replicate 16 3)
    (List.replicate 32 4) (List.replicate 32 5)
    rfl rfl rfl rfl rfl rfl rfl rfl rfl (by decide) (Or.inr (by decide))
    (by simp [sampleDict]) (by simp) (by simp) (by simp) (by simp) (by simp)

/-- C1 (amended): after creating a descriptor from scratch and generating
its keys, authenticating with the user password always yields `User`; and
authenticating with the owner password yields `Owner` unless the owner
password also passes the user-password check (which the code tries first —
in particular whenever the two passwords coincide), in which case it
yields `User`; it never fails.  Stated for the RC4/AESV2 family (any
revision, key length, permissions, document id, metadata flag) and for the
AESV3 family (any revision, any pseudo-random draws).  The hypotheses are
interface properties of the external primitives: RC4 is an involution, the
SHA digests have their nominal lengths. -/
theorem claim1_create_then_authenticate (prims : CryptoPrims)
    (userPassword ownerPassword documentId : List Nat)
    (pValue keyLength revisionA revisionB pValueB : Nat) (meta metaB : Bool)
    (rng : Nat → Nat) (pos : Nat) (ek0 : List Nat)
    (hinv : ∀ k x, prims.rc4 k (prims.rc4 k x) = x)
    (h256 : ∀ l, (prims.sha256 l).length = 32)
    (h384 : ∀ l, (prims.sha384 l).length = 48)
    (h512 : ∀ l, (prims.sha512 l).length = 64) :
    ((PdfEncryptRC4.Authenticate prims userPassword documentId
        (PdfEncryptRC4.GenerateEncryptionKey prims userPassword ownerPassword documentId
          pValue keyLength revisionA meta).2.1
        (PdfEncryptRC4.GenerateEncryptionKey prims userPassword ownerPassword documentId
          pValue keyLength revisionA meta).1
        pValue keyLength revisionA meta).1 = PdfAuthResult.User)
    ∧ ((PdfEncryptRC4.Authenticate prims ownerPassword documentId
        (PdfEncryptRC4.GenerateEncryptionKey prims userPassword ownerPassword documentId
          pValue keyLength revisionA meta).2.1
        (PdfEncryptRC4.GenerateEncryptionKey prims userPassword ownerPassword documentId
          pValue keyLength revisionA meta).1
        pValue keyLength revisionA meta).1 = PdfAuthResult.Owner
      ∨ (PdfEncryptRC4.Authenticate prims ownerPassword documentId
        (PdfEncryptRC4.GenerateEncryptionKey prims userPassword ownerPassword documentId
          pValue keyLength revisionA meta).2.1
        (PdfEncryptRC4.GenerateEncryptionKey prims userPassword ownerPassword documentId
          pValue keyLength revisionA meta).1
        pValue keyLength revisionA meta).1 = PdfAuthResult.User)
    ∧ (∀ g, PdfEncryptAESV3.GenerateEncryptionKey prims rng pos userPassword ownerPassword
          revisionB pValueB metaB = some g →
        (∃ ek, PdfEncryptAESV3.Authenticate prims userPassword g.uValue g.oValue
            g.ueValue g.oeValue revisionB ek0 = some (PdfAuthResult.User, ek))
        ∧ (∃ r ek, PdfEncryptAESV3.Authenticate prims ownerPassword g.uValue g.oValue
            g.ueValue g.oeValue revisionB ek0 = some (r, ek)
            ∧ (r = PdfAuthResult.Owner ∨ r = PdfAuthResult.User))) := by
  refine ⟨famA_authenticate_user prims userPassword ownerPassword documentId
      pValue keyLength revisionA meta,
    famA_authenticate_owner prims hinv userPassword ownerPassword documentId
      pValue keyLength revisionA meta, ?_⟩
  intro g hg
  cases hsu : prims.saslprep userPassword with
  | none =>
    simp [PdfEncryptAESV3.GenerateEncryptionKey, PdfEncryptAESV3.preprocessPassword,
      hsu] at hg
  | some u1 =>
    cases hso : prims.saslprep ownerPassword with
    | none =>
      simp [PdfEncryptAESV3.GenerateEncryptionKey, PdfEncryptAESV3.preprocessPassword,
        hsu, hso] at hg
    | some o1 =>
      simp only [PdfEncryptAESV3.GenerateEncryptionKey, PdfEncryptAESV3.preprocessPassword,
        hsu, hso, Option.map_some'] at hg
      injection hg with hg1
      subst hg1
      constructor
      · simp only [PdfEncryptAESV3.computeUserKey, PdfEncryptAESV3.computeOwnerKey,
          PdfEncryptAESV3.computeEncryptionKey]
        exact famB_authenticate_user_core prims userPassword (u1.take 127) revisionB
          _ _ _ _ _ ek0
          (by simp [PdfEncryptAESV3.preprocessPassword, hsu])
          (computeHash_length prims h256 h384 h512 _ _ _ _)
          (by simp)
      · simp only [PdfEncryptAESV3.computeUserKey, PdfEncryptAESV3.computeOwnerKey,
          PdfEncryptAESV3.computeEncryptionKey]
        exact famB_authenticate_owner_core prims ownerPassword (o1.take 127) revisionB
          _ _ _ _ _ ek0
          (by simp [PdfEncryptAESV3.preprocessPassword, hso])
          (computeHash_length prims h256 h384 h512 _ _ _ _)
          (by simp)

set_option maxRecDepth 8192 in
/-- C1 counterexample: with equal user and owner passwords (a perfectly
valid creation input — `PdfEncrypt::Create` accepts it), authenticating
with the owner password of a freshly created RC4 descriptor returns
`User`, not `Owner`, because the user-password check is tried first and
succeeds. -/
theorem claim1_counterexample :
    (PdfEncryptRC4.Authenticate samplePrims [0x61] [1, 2, 3]
      (PdfEncryptRC4.GenerateEncryptionKey samplePrims [0x61] [0x61] [1, 2, 3]
        0xFFFFF0C4 5 2 true).2.1
      (PdfEncryptRC4.GenerateEncryptionKey samplePrims [0x61] [0x61] [1, 2, 3]
        0xFFFFF0C4 5 2 true).1
      0xFFFFF0C4 5 2 true).1 = PdfAuthResult.User
    ∧ PdfAuthResult.User ≠ PdfAuthResult.Owner := by
  constructor
  · decide
  · decide

theorem claim1_witness :
    (PdfEncryptRC4.Authenticate samplePrims [1] [9, 9]
        (PdfEncryptRC4.GenerateEncryptionKey samplePrims [1] [2] [9, 9] 7 16 3 true).2.1
        (PdfEncryptRC4.GenerateEncryptionKey samplePrims [1] [2] [9, 9] 7 16 3 true).1
        7 16 3 true).1 = PdfAuthResult.User
    ∧ ((PdfEncryptRC4.Authenticate samplePrims [2] [9, 9]
        (PdfEncryptRC4.GenerateEncryptionKey samplePrims [1] [2] [9, 9] 7 16 3 true).2.1
        (PdfEncryptRC4.GenerateEncryptionKey samplePrims [1] [2] [9, 9] 7 16 3 true).1
        7 16 3 true).1 = PdfAuthResult.Owner
      ∨ (PdfEncryptRC4.Authenticate samplePrims [2] [9, 9]
        (PdfEncryptRC4.GenerateEncryptionKey samplePrims [1] [2] [9, 9] 7 16 3 true).2.1
        (PdfEncryptRC4.GenerateEncryptionKey samplePrims [1] [2] [9, 9] 7 16 3 true).1
        7 16 3 true).1 = PdfAuthResult.User) :=
  ⟨(claim1_create_then_authenticate samplePrims [1] [2] [9, 9] 7 16 3 5 0 true true
      (fun n => n) 0 [] samplePrims_rc4_involutive (sampleHash_length 32)
      (sampleHash_length 48) (sampleHash_length 64)).1,
   (claim1_create_then_authenticate samplePrims [1] [2] [9, 9] 7 16 3 5 0 true true
      (fun n => n) 0 [] samplePrims_rc4_involutive (sampleHash_length 32)
      (sampleHash_length 48) (sampleHash_length 64)).2.1⟩

theorem claim8_witness :
    ((samplePrims.md5 [1, 2, 3]).length = 16) ∧
    (PdfEncryptAESV3.generateInitialVector (fun n => n) 0).1
      ≠ (PdfEncryptAESV3.generateInitialVector (fun n => n) (0 + 16)).1 :=
  ⟨sampleHash_length 16 _,
   (claim8_initial_vector samplePrims [] 16 [1, 2, 3] [] 0 0 (fun n => n) 0
     (sampleHash_length 16 _)).2.2.2.2 0 (by omega) (by decide)⟩

end PoDoFo
